import Mathlib

/-!
Verification of the SQLite-to-NeonDB migration scripts
(`migrate_sqlite_to_neon.py`, `migrate_data_only.py`).

The Python source is shallowly embedded: the pure string/value
transformations are translated directly, and the stateful database
interactions are modelled by explicit state passing where the external
database behaviour (whether an individual SQL statement succeeds) is an
oracle parameter.
-/

namespace Portfolio

/-! ## String helpers

`listStarts pat l` models Python's `str.startswith` on character lists,
`listHas l pat` models the `pat in l` substring test, and `pyStrip`
models `str.strip()` (drop leading and trailing whitespace).
-/

def listStarts : List Char → List Char → Bool
  | [], _ => true
  | _ :: _, [] => false
  | p :: ps, c :: cs => p == c && listStarts ps cs

def listHas : List Char → List Char → Bool
  | [], pat => listStarts pat []
  | c :: rest, pat => listStarts pat (c :: rest) || listHas rest pat

/-- `Sub t l`: `t` occurs as a contiguous run inside `l`. -/
def Sub (t l : List Char) : Prop := ∃ u v, l = u ++ (t ++ v)

theorem listStarts_iff (pat l : List Char) :
    listStarts pat l = true ↔ ∃ v, l = pat ++ v := by
  induction pat generalizing l with
  | nil => simp [listStarts]
  | cons p ps ih =>
    cases l with
    | nil =>
      simp [listStarts]
    | cons c cs =>
      simp only [listStarts, Bool.and_eq_true, beq_iff_eq]
      constructor
      · rintro ⟨rfl, h⟩
        obtain ⟨v, rfl⟩ := (ih cs).mp h
        exact ⟨v, rfl⟩
      · rintro ⟨v, hv⟩
        injection hv with h1 h2
        exact ⟨h1.symm, (ih cs).mpr ⟨v, h2⟩⟩

theorem listHas_iff (l pat : List Char) :
    listHas l pat = true ↔ Sub pat l := by
  induction l with
  | nil =>
    simp only [listHas, listStarts_iff, Sub]
    constructor
    · rintro ⟨v, hv⟩
      exact ⟨[], v, by simpa using hv⟩
    · rintro ⟨u, v, huv⟩
      have hu : u = [] := by
        cases u with
        | nil => rfl
        | cons a as => simp at huv
      subst hu
      exact ⟨v, by simpa using huv⟩
  | cons c cs ih =>
    simp only [listHas, Bool.or_eq_true, listStarts_iff, ih, Sub]
    constructor
    · rintro (⟨v, hv⟩ | ⟨u, v, huv⟩)
      · exact ⟨[], v, by simpa using hv⟩
      · exact ⟨c :: u, v, by simp [huv]⟩
    · rintro ⟨u, v, huv⟩
      cases u with
      | nil =>
        exact Or.inl ⟨v, by simpa using huv⟩
      | cons a as =>
        injection huv with h1 h2
        exact Or.inr ⟨as, v, h2⟩

instance (t l : List Char) : Decidable (Sub t l) :=
  decidable_of_iff (listHas l t = true) (listHas_iff l t)

theorem Sub.trans {t m l : List Char} (h1 : Sub t m) (h2 : Sub m l) : Sub t l := by
  obtain ⟨a, b, rfl⟩ := h1
  obtain ⟨c, d, rfl⟩ := h2
  exact ⟨c ++ a, b ++ d, by simp⟩

theorem Sub.append_middle (t u v : List Char) : Sub t (u ++ (t ++ v)) :=
  ⟨u, v, rfl⟩

theorem Sub.reverse {t l : List Char} (h : Sub t l) : Sub t.reverse l.reverse := by
  obtain ⟨u, v, rfl⟩ := h
  exact ⟨v.reverse, u.reverse, by simp⟩

/-- Model of Python `str.strip()`: drop leading and trailing whitespace. -/
def pyStrip (l : List Char) : List Char :=
  ((l.dropWhile Char.isWhitespace).reverse.dropWhile Char.isWhitespace).reverse

theorem dropWhile_is_tail (p : Char → Bool) (l : List Char) :
    ∃ u, l = u ++ l.dropWhile p := by
  induction l with
  | nil => exact ⟨[], rfl⟩
  | cons c cs ih =>
    by_cases hc : p c
    · obtain ⟨u, hu⟩ := ih
      refine ⟨c :: u, ?_⟩
      simpa [List.dropWhile_cons, hc] using congrArg (List.cons c) hu
    · exact ⟨[], by simp [List.dropWhile_cons, hc]⟩

theorem pyStrip_sub (l : List Char) : Sub (pyStrip l) l := by
  obtain ⟨u, hu⟩ := dropWhile_is_tail Char.isWhitespace l
  obtain ⟨w, hw⟩ := dropWhile_is_tail Char.isWhitespace
    (l.dropWhile Char.isWhitespace).reverse
  refine ⟨u, w.reverse, ?_⟩
  have hm : l.dropWhile Char.isWhitespace = pyStrip l ++ w.reverse := by
    have h := congrArg List.reverse hw
    simpa [pyStrip, List.reverse_append] using h
  conv_lhs => rw [hu]
  rw [hm]

theorem sub_dropWhile {p : Char → Bool} {t l : List Char} {c : Char} {r : List Char}
    (ht : t = c :: r) (hc : p c = false) (h : Sub t l) :
    Sub t (l.dropWhile p) := by
  obtain ⟨u, v, rfl⟩ := h
  induction u with
  | nil =>
    subst ht
    simp only [List.nil_append, List.cons_append, List.dropWhile_cons, hc,
      Bool.false_eq_true, if_false]
    exact ⟨[], v, by simp⟩
  | cons a as ih =>
    simp only [List.cons_append, List.dropWhile_cons]
    by_cases ha : p a
    · simpa [ha] using ih
    · simp only [ha, Bool.false_eq_true, if_false]
      exact ⟨a :: as, v, by simp⟩

theorem sub_pyStrip {t l : List Char} {c d : Char} {r s : List Char}
    (ht : t = c :: r) (hc : Char.isWhitespace c = false)
    (htr : t.reverse = d :: s) (hd : Char.isWhitespace d = false)
    (h : Sub t l) : Sub t (pyStrip l) := by
  have h1 : Sub t (l.dropWhile Char.isWhitespace) := sub_dropWhile ht hc h
  have h2 : Sub t.reverse (l.dropWhile Char.isWhitespace).reverse := h1.reverse
  have h3 : Sub t.reverse
      ((l.dropWhile Char.isWhitespace).reverse.dropWhile Char.isWhitespace) :=
    sub_dropWhile htr hd h2
  have h4 := h3.reverse
  simpa [pyStrip] using h4

/-! ## Data model

`Value` is a scalar cell value as seen by the drivers (SQLite storage
classes).  `Column` mirrors one row of `PRAGMA table_info`, `SqliteIndex`
one row of `PRAGMA index_list` joined with its `PRAGMA index_info`
column names.
-/

inductive Value where
  | null
  | int (i : Int)
  | real (q : Rat)
  | text (s : String)
  | blob (b : List UInt8)
deriving DecidableEq

/-- Row translation in `migrate_sqlite_to_neon.migrate_table_data`:
`None if val == '' else val`. -/
def normalizeVal (v : Value) : Value :=
  if v = Value.text "" then Value.null else v

def isStr : Value → Bool
  | .text _ => true
  | _ => false

/-- Row translation in `migrate_data_only.migrate_table_data`:
`None if (isinstance(val, str) and val == '') or val is None else val`. -/
def mysqlNormalizeVal (v : Value) : Value :=
  if (isStr v = true ∧ v = Value.text "") ∨ v = Value.null then Value.null else v

structure Column where
  cid : Nat
  name : String
  type : String
  notnull : Bool
  dflt_value : Option String
  pk : Bool
deriving DecidableEq

structure SqliteIndex where
  name : String
  unique : Bool
  origin : String
  columns : List String
deriving DecidableEq

structure SourceTable where
  name : String
  schema : List Column
  rows : List (List Value)
  indexes : List SqliteIndex

/-! ## Type translation (`convert_sqlite_type_to_postgres`) -/

/-- `pat in s` on Python strings. -/
def strHas (s pat : String) : Bool := listHas s.data pat.data

/-- Python `str.upper()` (ASCII suffices for the declared type strings). -/
def pyUpper (s : String) : String := String.mk (s.data.map Char.toUpper)

/-- The `type_mapping` dict, in insertion (= iteration) order. -/
def type_mapping : List (String × String) :=
  [("INTEGER", "INTEGER"), ("TEXT", "TEXT"), ("REAL", "REAL"), ("BLOB", "BYTEA"),
   ("NUMERIC", "NUMERIC"), ("BOOLEAN", "BOOLEAN"), ("DATE", "DATE"),
   ("DATETIME", "TIMESTAMP"), ("TIME", "TIME"), ("VARCHAR", "VARCHAR(255)"),
   ("CHAR", "TEXT")]

def convert_sqlite_type_to_postgres (sqliteType : String) : String :=
  let t := pyUpper sqliteType
  if strHas t "VARCHAR" then t
  else if strHas t "CHAR" then "TEXT"
  else
    match type_mapping.find? (fun p => strHas t p.1) with
    | some p => p.2
    | none => "TEXT"

/-! ## DDL construction (`create_postgres_table`) -/

def nullable_fields : List String :=
  ["last_name", "first_name", "date_joined", "site_name",
   "hostname", "root_page_id", "is_default_site", "seo_title",
   "search_description", "go_live_at", "expire_at", "expired"]

/-- `'NOT NULL' if column['notnull'] and col_name not in nullable_fields else ''` -/
def notNullClause (c : Column) : String :=
  if c.notnull && !(nullable_fields.contains c.name) then "NOT NULL" else ""

/-- `f"DEFAULT {column['dflt_value']}" if column['dflt_value'] else ''` -/
def defaultClause (c : Column) : String :=
  match c.dflt_value with
  | some s => if s = "" then "" else "DEFAULT " ++ s
  | none => ""

/-- The text `f"{col_name} {col_type} {not_null} {default_val}"` with the
not-null slot abstracted, before `.strip()`. -/
def rawColumnDef (c : Column) (clause : List Char) : List Char :=
  c.name.data ++ ([' '] ++ ((convert_sqlite_type_to_postgres c.type).data ++
    ([' '] ++ (clause ++ ([' '] ++ (defaultClause c).data)))))

/-- `column_def = f"{col_name} {col_type} {not_null} {default_val}".strip()` -/
def columnDefChars (c : Column) : List Char :=
  pyStrip (rawColumnDef c (notNullClause c).data)

def ddlColumns (schema : List Column) : List String :=
  schema.map (fun c => String.mk (columnDefChars c))

def primaryKeysOf (schema : List Column) : List String :=
  (schema.filter (fun c => c.pk)).map (fun c => c.name)

/-- `f", PRIMARY KEY ({', '.join(primary_keys)})" if primary_keys else ""` -/
def pkConstraint (schema : List Column) : String :=
  if primaryKeysOf schema = [] then ""
  else ", PRIMARY KEY (" ++ String.intercalate ", " (primaryKeysOf schema) ++ ")"

/-- The `create_sql` text built by `create_postgres_table`. -/
def create_postgres_table (tableName : String) (schema : List Column) : String :=
  "\n        DROP TABLE IF EXISTS " ++ tableName ++ " CASCADE;\n        CREATE TABLE "
    ++ tableName ++ " (\n            "
    ++ String.intercalate ", " (ddlColumns schema) ++ pkConstraint schema
    ++ "\n        );\n        "

/-! ## Row transfer (`migrate_table_data`)

The target driver is an oracle `insertRes` saying, for a table name and
a parameter tuple, whether `postgres_cursor.execute(insert_sql, tuple)`
succeeds or raises (with which message).
-/

inductive LogEntry where
  | info (msg : String)
  | warning (msg : String)
  | error (msg : String)
deriving DecidableEq

def isOkE : Except String Unit → Bool
  | .ok _ => true
  | .error _ => false

/-- The `for row in rows:` loop: returns the tuples actually inserted,
the log entries emitted, and `migrated_count`. -/
def migrateRows (insertRes : String → List Value → Except String Unit)
    (tableName : String) : List (List Value) → List (List Value) × List LogEntry × Nat
  | [] => ([], [], 0)
  | row :: rest =>
    let tup := row.map normalizeVal
    let res := migrateRows insertRes tableName rest
    match insertRes tableName tup with
    | .ok _ => (tup :: res.1, res.2.1, res.2.2 + 1)
    | .error e =>
      (res.1,
       LogEntry.warning ("Error migrating row in " ++ tableName ++ ": " ++ e) :: res.2.1,
       res.2.2)

def migrate_table_data (insertRes : String → List Value → Except String Unit)
    (tableName : String) (rows : List (List Value)) :
    List (List Value) × List LogEntry × Nat :=
  if rows = [] then
    ([], [LogEntry.info ("No data to migrate in table: " ++ tableName)], 0)
  else
    let res := migrateRows insertRes tableName rows
    (res.1,
     res.2.1 ++ [LogEntry.info ("Migrated " ++ toString res.2.2 ++ " rows to table: "
       ++ tableName)],
     res.2.2)

def failedRows (insertRes : String → List Value → Except String Unit)
    (tableName : String) (rows : List (List Value)) : List (List Value) :=
  rows.filter (fun r => !(isOkE (insertRes tableName (r.map normalizeVal))))

/-- Rows of `migrate_data_only.migrate_table_data`: the whole table is
normalized into `mysql_rows` before the single `executemany`. -/
def mysqlRows (rows : List (List Value)) : List (List Value) :=
  rows.map (fun r => r.map mysqlNormalizeVal)

/-! ## Index recreation (`create_indexes`) -/

/-- The loop over `PRAGMA index_list` rows: returns the `CREATE INDEX`
statements passed to `execute` and the log entries. -/
def create_indexes (execStmt : String → Except String Unit) (tableName : String) :
    List SqliteIndex → List String × List LogEntry
  | [] => ([], [])
  | idx :: rest =>
    if idx.unique then create_indexes execStmt tableName rest
    else
      let stmt := "CREATE INDEX IF NOT EXISTS " ++ idx.name ++ " ON " ++ tableName
        ++ " (" ++ String.intercalate ", " idx.columns ++ ")"
      let res := create_indexes execStmt tableName rest
      match execStmt stmt with
      | .ok _ => (stmt :: res.1, LogEntry.info ("Created index: " ++ idx.name) :: res.2)
      | .error e =>
        (stmt :: res.1,
         LogEntry.warning ("Error creating index " ++ idx.name ++ ": " ++ e) :: res.2)

/-! ## Sequence reset (`reset_sequences`) -/

/-- One row of the `information_schema.columns` query. -/
structure CatalogColumn where
  table_name : String
  column_name : String
  table_schema : String
  column_default : Option String

/-- Sequence state: `last_value` of the serial sequence behind
(table, column). -/
def SeqState := String → String → Int

/-- `column_default LIKE 'nextval%'` -/
def isSerialDefault : Option String → Bool
  | some s => listStarts "nextval".data s.data
  | none => false

def selectedSequences (cols : List CatalogColumn) : List CatalogColumn :=
  cols.filter (fun c => c.table_schema == "public" && isSerialDefault c.column_default)

def listMax : List Int → Option Int
  | [] => none
  | v :: rest => some (match listMax rest with | none => v | some m => max v m)

/-- `COALESCE(MAX(column), 1)` over the column values. -/
def coalesceMaxOne (vals : List Int) : Int :=
  match listMax vals with
  | some m => m
  | none => 1

def updateSeq (st : SeqState) (t c : String) (v : Int) : SeqState :=
  fun t0 c0 => if t0 == t && c0 == c then v else st t0 c0

/-- The `for table, column in sequences:` loop; `setvalOk` is the oracle
for whether the `setval` statement succeeds (errors are caught and only
logged as warnings). -/
def resetLoop (setvalOk : String → String → Bool)
    (colVals : String → String → List Int) :
    List CatalogColumn → SeqState → SeqState
  | [], st => st
  | c :: rest, st =>
    resetLoop setvalOk colVals rest
      (if setvalOk c.table_name c.column_name then
        updateSeq st c.table_name c.column_name
          (coalesceMaxOne (colVals c.table_name c.column_name))
      else st)

def reset_sequences (setvalOk : String → String → Bool)
    (colVals : String → String → List Int) (cols : List CatalogColumn)
    (st : SeqState) : SeqState :=
  resetLoop setvalOk colVals (selectedSequences cols) st

/-- `nextval` after `setval(seq, v)` (with `is_called` true) serves `v + 1`:
the value a subsequent auto-increment insert would receive. -/
def nextAutoValue (st : SeqState) (t c : String) : Int := st t c + 1

/-! ## Orchestration (`migrate`, `verify_migration`, `main`) -/

structure Oracle where
  sqliteConnectOk : Bool
  neonConnectOk : Bool
  ddlOk : String → Bool
  insertRes : String → List Value → Except String Unit
  commitOk : Bool

/-- Committed target database: table name to its rows, `none` when the
table does not exist. -/
def Target := String → Option (List (List Value))

def setTable (tgt : Target) (key : String) (rows : List (List Value)) : Target :=
  fun n => if n == key then some rows else tgt n

/-- The per-table phase of `migrate`, acting on the pending transaction
view: `create_postgres_table` (drop + create, a DDL failure re-raises
and aborts) then `migrate_table_data`. -/
def runTablesE (o : Oracle) : List SourceTable → Target → Except String Target
  | [], pending => .ok pending
  | tbl :: rest, pending =>
    if o.ddlOk tbl.name then
      runTablesE o rest
        (setTable pending tbl.name (migrate_table_data o.insertRes tbl.name tbl.rows).1)
    else .error ("Error creating table " ++ tbl.name)

structure RunState where
  committed : Target
  sqliteOpen : Bool
  neonOpen : Bool

/-- `SQLiteToNeonMigrator.migrate`: connect, per-table phase, commit; on
any exception roll back (discard the pending view) and re-raise; in all
cases the `finally` block closes both connections. -/
def migrate (o : Oracle) (src : List SourceTable) (init : Target) :
    Except String Unit × RunState :=
  if o.sqliteConnectOk = false then
    (.error "Database connection error", ⟨init, false, false⟩)
  else if o.neonConnectOk = false then
    (.error "Database connection error", ⟨init, false, false⟩)
  else
    match runTablesE o src init with
    | .error e => (.error e, ⟨init, false, false⟩)
    | .ok pending =>
      if o.commitOk then (.ok (), ⟨pending, false, false⟩)
      else (.error "commit failed", ⟨init, false, false⟩)

/-- `main` without `--verify`: exception from `migrate` means
`sys.exit(1)`. -/
def mainExitCode (o : Oracle) (src : List SourceTable) (init : Target) : Nat :=
  match (migrate o src init).1 with
  | .ok _ => 0
  | .error _ => 1

structure VerifyOracle where
  sqliteConnectOk : Bool
  neonConnectOk : Bool
  srcCount : String → Except String Nat
  tgtCount : String → Except String Nat

/-- The `for table_name in tables:` loop of `verify_migration`: emitted
log entries so far and whether an exception escaped the loop. -/
def verifyTables (vo : VerifyOracle) : List String → List LogEntry × Except String Unit
  | [] => ([], .ok ())
  | t :: rest =>
    match vo.srcCount t with
    | .error e => ([], .error e)
    | .ok sc =>
      match vo.tgtCount t with
      | .error e => ([], .error e)
      | .ok pc =>
        let entry :=
          if sc == pc then LogEntry.info ("✓ " ++ t ++ ": " ++ toString sc ++ " rows")
          else LogEntry.warning ("✗ " ++ t ++ ": SQLite=" ++ toString sc
            ++ ", PostgreSQL=" ++ toString pc)
        let res := verifyTables vo rest
        (entry :: res.1, res.2)

/-- `verify_migration`: every exception is caught by its own
`try/except` and turned into an error log entry; the function always
returns normally with only a log. -/
def verify_migration (vo : VerifyOracle) (src : List SourceTable) : List LogEntry :=
  if vo.sqliteConnectOk = false then
    [LogEntry.error "Verification failed: connection error"]
  else if vo.neonConnectOk = false then
    [LogEntry.error "Verification failed: connection error"]
  else
    let res := verifyTables vo (src.map (fun t => t.name))
    match res.2 with
    | .ok _ => res.1 ++ [LogEntry.info "Migration verification completed"]
    | .error e => res.1 ++ [LogEntry.error ("Verification failed: " ++ e)]

/-- `main` with `--verify`: `verify_migration` runs after a successful
`migrate` and its outcome is discarded. -/
def mainWithVerify (o : Oracle) (vo : VerifyOracle) (src : List SourceTable)
    (init : Target) : Nat :=
  match (migrate o src init).1 with
  | .error _ => 1
  | .ok _ =>
    let _ := verify_migration vo src
    0

/-- Last source table registered under `name` (the per-table loop
overwrites earlier tables of the same name in the target). -/
def lookupLast (src : List SourceTable) (name : String) : Option SourceTable :=
  src.reverse.find? (fun t => t.name == name)

/-! ## Helper lemmas about the row-transfer loop -/

theorem migrateRows_fst (f : String → List Value → Except String Unit) (t : String)
    (rows : List (List Value)) :
    (migrateRows f t rows).1
      = (rows.map (fun r => r.map normalizeVal)).filter (fun tup => isOkE (f t tup)) := by
  induction rows with
  | nil => rfl
  | cons row rest ih =>
    simp only [migrateRows, List.map_cons, List.filter_cons]
    cases h : f t (row.map normalizeVal) with
    | ok u => simp [h, isOkE, ih]
    | error e => simp [h, isOkE, ih]

theorem filter_length_add {α : Type} (p : α → Bool) (l : List α) :
    (l.filter p).length + (l.filter (fun x => !(p x))).length = l.length := by
  induction l with
  | nil => rfl
  | cons a l ih =>
    by_cases h : p a <;> simp [List.filter_cons, h] <;> omega

theorem migrateRows_warning (f : String → List Value → Except String Unit) (t : String)
    (rows : List (List Value)) (r : List Value) (hr : r ∈ rows) (e : String)
    (he : f t (r.map normalizeVal) = .error e) :
    LogEntry.warning ("Error migrating row in " ++ t ++ ": " ++ e)
      ∈ (migrateRows f t rows).2.1 := by
  induction rows with
  | nil => cases hr
  | cons row rest ih =>
    simp only [migrateRows]
    rcases List.mem_cons.mp hr with heq | hmem
    · subst heq
      simp [he]
    · cases h : f t (row.map normalizeVal) with
      | ok u => simpa [h] using ih hmem
      | error e2 => simp [h]; exact Or.inr (ih hmem)

theorem migrate_table_data_fst (f : String → List Value → Except String Unit)
    (t : String) (rows : List (List Value)) :
    (migrate_table_data f t rows).1
      = (rows.map (fun r => r.map normalizeVal)).filter (fun tup => isOkE (f t tup)) := by
  by_cases h : rows = []
  · subst h; rfl
  · simp [migrate_table_data, h, migrateRows_fst]

theorem migrate_table_data_length (f : String → List Value → Except String Unit)
    (t : String) (rows : List (List Value)) :
    (migrate_table_data f t rows).1.length = rows.length - (failedRows f t rows).length := by
  rw [migrate_table_data_fst]
  have h1 := filter_length_add (fun tup => isOkE (f t tup))
    (rows.map (fun r => r.map normalizeVal))
  have h2 : (rows.map (fun r => r.map normalizeVal)).filter
      (fun tup => !(isOkE (f t tup)))
      = (failedRows f t rows).map (fun r => r.map normalizeVal) := by
    simp only [List.filter_map]; rfl
  have h3 := List.length_map rows (fun r => r.map normalizeVal)
  have h4 := List.length_map (failedRows f t rows) (fun r => r.map normalizeVal)
  rw [h2] at h1
  omega

theorem migrate_table_data_warning (f : String → List Value → Except String Unit)
    (t : String) (rows : List (List Value)) (r : List Value) (hr : r ∈ rows) (e : String)
    (he : f t (r.map normalizeVal) = .error e) :
    LogEntry.warning ("Error migrating row in " ++ t ++ ": " ++ e)
      ∈ (migrate_table_data f t rows).2.1 := by
  have hne : rows ≠ [] := by rintro rfl; cases hr
  simp only [migrate_table_data, hne, if_false, List.mem_append]
  exact Or.inl (migrateRows_warning f t rows r hr e he)

def c1InsertRes : String → List Value → Except String Unit :=
  fun _ tup =>
    if tup = [Value.int 3, Value.text "c"] then
      Except.error "foreign key violation"
    else Except.ok ()

def c1Rows : List (List Value) :=
  [[Value.int 1, Value.text "a"], [Value.int 2, Value.text ""], [Value.int 3, Value.text "c"]]

theorem normalizeVal_ne_empty (v : Value) : normalizeVal v ≠ Value.text "" := by
  by_cases h : v = Value.text ""
  · subst h; simp [normalizeVal]
  · have heq : normalizeVal v = v := by simp [normalizeVal, h]
    rw [heq]; exact h

theorem mysqlNormalizeVal_eq_normalizeVal (v : Value) :
    mysqlNormalizeVal v = normalizeVal v := by
  cases v <;> simp [mysqlNormalizeVal, normalizeVal, isStr]

/-- C3: row normalization replaces exactly the empty-string values by
null and leaves every other value unchanged, in both migrators, so no
inserted row of `migrate_table_data` (nor any row of the
`migrate_data_only` batch) contains an empty-string value. -/
theorem c3_empty_string_becomes_null :
    (normalizeVal (Value.text "") = Value.null)
    ∧ (∀ v : Value, v ≠ Value.text "" → normalizeVal v = v)
    ∧ (∀ v : Value, mysqlNormalizeVal v = normalizeVal v)
    ∧ (∀ (f : String → List Value → Except String Unit) (t : String)
        (rows : List (List Value)), ∀ r ∈ (migrate_table_data f t rows).1,
        ∀ v ∈ r, v ≠ Value.text "")
    ∧ (∀ rows : List (List Value), ∀ r ∈ mysqlRows rows, ∀ v ∈ r,
        v ≠ Value.text "") := by
  refine ⟨rfl, ?_, mysqlNormalizeVal_eq_normalizeVal, ?_, ?_⟩
  · intro v hv
    simp [normalizeVal, hv]
  · intro f t rows r hr v hv
    rw [migrate_table_data_fst] at hr
    obtain ⟨r0, hr0, rfl⟩ := List.mem_map.mp (List.mem_of_mem_filter hr)
    obtain ⟨v0, hv0, rfl⟩ := List.mem_map.mp hv
    exact normalizeVal_ne_empty v0
  · intro rows r hr v hv
    obtain ⟨r0, hr0, rfl⟩ := List.mem_map.mp hr
    obtain ⟨v0, hv0, rfl⟩ := List.mem_map.mp hv
    rw [mysqlNormalizeVal_eq_normalizeVal]
    exact normalizeVal_ne_empty v0

theorem c3_witness :
    normalizeVal (Value.text "") = Value.null
    ∧ normalizeVal (Value.text "a") = Value.text "a"
    ∧ mysqlNormalizeVal (Value.text "") = normalizeVal (Value.text "")
    ∧ Value.text "" ∉ ([Value.text "a", Value.null] : List Value) :=
  ⟨c3_empty_string_becomes_null.1,
   c3_empty_string_becomes_null.2.1 (Value.text "a") (by decide),
   c3_empty_string_becomes_null.2.2.1 (Value.text ""),
   by decide⟩

/-- C4 (divergence witness): the ordered substring matching checks the
`DATE` entry of `type_mapping` before the `DATETIME` entry, so a source
column declared `DATETIME` is translated to `DATE`, although the code's
own translation table maps `DATETIME` to `TIMESTAMP` (that entry is
unreachable). -/
theorem c4_datetime_maps_to_date :
    convert_sqlite_type_to_postgres "DATETIME" = "DATE"
    ∧ ("DATETIME", "TIMESTAMP") ∈ type_mapping
    ∧ convert_sqlite_type_to_postgres "DATETIME" ≠ "TIMESTAMP" := by
  refine ⟨rfl, by decide, ?_⟩
  rw [show convert_sqlite_type_to_postgres "DATETIME" = "DATE" from rfl]
  decide

/-! ## NOT NULL constraint placement -/

theorem contains_eq_true_iff (l : List String) (a : String) :
    l.contains a = true ↔ a ∈ l := by
  simp

theorem notnull_cond_iff (c : Column) :
    (c.notnull && !(nullable_fields.contains c.name)) = true
      ↔ (c.notnull = true ∧ c.name ∉ nullable_fields) := by
  rw [Bool.and_eq_true, Bool.not_eq_true', ← Bool.not_eq_true (nullable_fields.contains c.name)]
  rw [contains_eq_true_iff]

theorem sub_notnull_raw (c : Column) :
    Sub "NOT NULL".data (rawColumnDef c "NOT NULL".data) := by
  refine ⟨c.name.data ++ ([' '] ++ (convert_sqlite_type_to_postgres c.type).data ++ [' ']),
    [' '] ++ (defaultClause c).data, ?_⟩
  simp [rawColumnDef]

/-- C5: the generated column definition contains `NOT NULL` exactly when
the source marks the column not-null and its name is not on the
`nullable_fields` exemption list (assuming the name, translated type and
default clause do not themselves spell out `NOT NULL`). -/
theorem c5_not_null_iff (c : Column)
    (H : ¬ Sub "NOT NULL".data (rawColumnDef c [])) :
    Sub "NOT NULL".data (columnDefChars c)
      ↔ (c.notnull = true ∧ c.name ∉ nullable_fields) := by
  by_cases hcond : (c.notnull && !(nullable_fields.contains c.name)) = true
  · have hclause : notNullClause c = "NOT NULL" := by
      unfold notNullClause
      rw [hcond]
      simp
    constructor
    · intro _
      exact (notnull_cond_iff c).mp hcond
    · intro _
      rw [columnDefChars, hclause]
      exact sub_pyStrip rfl (by decide) rfl (by decide) (sub_notnull_raw c)
  · have hfalse : (c.notnull && !(nullable_fields.contains c.name)) = false := by
      cases hb : (c.notnull && !(nullable_fields.contains c.name)) with
      | false => rfl
      | true => exact absurd hb hcond
    have hclause : notNullClause c = "" := by
      unfold notNullClause
      rw [hfalse]
      simp
    constructor
    · intro hsub
      rw [columnDefChars, hclause] at hsub
      exact absurd (Sub.trans hsub (pyStrip_sub _)) H
    · intro hrhs
      exact absurd ((notnull_cond_iff c).mpr hrhs) hcond

def c5Column : Column :=
  { cid := 3, name := "email", type := "VARCHAR(254)", notnull := true,
    dflt_value := none, pk := false }

theorem c5_witness :
    Sub "NOT NULL".data (columnDefChars c5Column)
      ↔ (c5Column.notnull = true ∧ c5Column.name ∉ nullable_fields) :=
  c5_not_null_iff c5Column (by decide)

/-- C9: the exemption is matched on the column name alone, with no table
qualifier: for any table name and any schema, a column whose name is on
the `nullable_fields` list gets no `NOT NULL` in its definition, and
that definition enters the DDL column list unchanged. -/
theorem c9_exemption_ignores_table (tableName : String) (schema : List Column)
    (c : Column) (hmem : c ∈ schema) (hex : c.name ∈ nullable_fields)
    (H : ¬ Sub "NOT NULL".data (rawColumnDef c [])) :
    ¬ Sub "NOT NULL".data (columnDefChars c)
    ∧ String.mk (columnDefChars c) ∈ ddlColumns schema := by
  have hclause : notNullClause c = "" := by
    have hc : nullable_fields.contains c.name = true := (contains_eq_true_iff _ _).mpr hex
    unfold notNullClause
    rw [hc]
    simp
  constructor
  · intro hsub
    rw [columnDefChars, hclause] at hsub
    exact absurd (Sub.trans hsub (pyStrip_sub _)) H
  · exact List.mem_map_of_mem _ hmem

def c9Column : Column :=
  { cid := 0, name := "expired", type := "BOOLEAN", notnull := true,
    dflt_value := none, pk := false }

theorem c9_witness :
    ¬ Sub "NOT NULL".data (columnDefChars c9Column)
    ∧ String.mk (columnDefChars c9Column) ∈ ddlColumns [c9Column] :=
  c9_exemption_ignores_table "some_unrelated_table" [c9Column] c9Column
    (by decide) (by decide) (by decide)

/-! ## Orchestration lemmas -/

theorem find?_split {α : Type} (p : α → Bool) (l₁ l₂ : List α) :
    (l₁ ++ l₂).find? p = (match l₁.find? p with
      | some x => some x
      | none => l₂.find? p) := by
  induction l₁ with
  | nil => simp
  | cons a l ih =>
    by_cases h : p a
    · simp [List.find?_cons_of_pos, h]
    · simp only [List.cons_append, List.find?_cons_of_neg _ h, ih]

theorem lookupLast_cons (tbl : SourceTable) (rest : List SourceTable) (name : String) :
    lookupLast (tbl :: rest) name
      = (match lookupLast rest name with
         | some tb => some tb
         | none => if tbl.name == name then some tbl else none) := by
  simp only [lookupLast, List.reverse_cons]
  rw [find?_split]
  cases rest.reverse.find? (fun t => t.name == name) with
  | some tb => rfl
  | none =>
    by_cases h : tbl.name == name
    · simp [List.find?_cons_of_pos, h]
    · simp [List.find?_cons_of_neg, h]

theorem runTablesE_ok_eval (o : Oracle) :
    ∀ (src : List SourceTable) (pending res : Target),
    runTablesE o src pending = .ok res → ∀ name : String,
    res name = (match lookupLast src name with
      | some tbl => some (migrate_table_data o.insertRes tbl.name tbl.rows).1
      | none => pending name) := by
  intro src
  induction src with
  | nil =>
    intro pending res h name
    simp only [runTablesE] at h
    cases h
    simp [lookupLast]
  | cons tbl rest ih =>
    intro pending res h name
    simp only [runTablesE] at h
    by_cases hd : o.ddlOk tbl.name
    · rw [if_pos hd] at h
      rw [ih _ res h name, lookupLast_cons]
      cases hfind : lookupLast rest name with
      | some tb => rfl
      | none =>
        by_cases hn : name = tbl.name
        · subst hn
          simp [setTable]
        · have h1 : (name == tbl.name) = false := by
            simp only [beq_eq_false_iff_ne, ne_eq]; exact hn
          have h2 : (tbl.name == name) = false := by
            simp only [beq_eq_false_iff_ne, ne_eq]
            exact fun hh => hn hh.symm
          simp [setTable, h1, h2]
    · rw [if_neg hd] at h
      cases h

theorem migrate_ok_inv (o : Oracle) (src : List SourceTable) (init : Target)
    (s : RunState) (h : migrate o src init = (.ok (), s)) :
    runTablesE o src init = .ok s.committed := by
  unfold migrate at h
  by_cases h1 : o.sqliteConnectOk = false
  · simp [h1] at h
  · rw [if_neg h1] at h
    by_cases h2 : o.neonConnectOk = false
    · simp [h2] at h
    · rw [if_neg h2] at h
      cases hrun : runTablesE o src init with
      | error e => simp [hrun] at h
      | ok pending =>
        simp only [hrun] at h
        by_cases h3 : o.commitOk = true
        · rw [if_pos h3, Prod.mk.injEq] at h
          obtain ⟨h4, h5⟩ := h
          rw [← h5]
        · rw [if_neg h3] at h
          simp at h

theorem migrate_error_committed (o : Oracle) (src : List SourceTable) (init : Target)
    (e : String) (s : RunState) (h : migrate o src init = (.error e, s)) :
    s.committed = init := by
  unfold migrate at h
  by_cases h1 : o.sqliteConnectOk = false
  · rw [if_pos h1, Prod.mk.injEq] at h
    obtain ⟨h4, h5⟩ := h
    rw [← h5]
  · rw [if_neg h1] at h
    by_cases h2 : o.neonConnectOk = false
    · rw [if_pos h2, Prod.mk.injEq] at h
      obtain ⟨h4, h5⟩ := h
      rw [← h5]
    · rw [if_neg h2] at h
      cases hrun : runTablesE o src init with
      | error e2 =>
        simp only [hrun] at h
        rw [Prod.mk.injEq] at h
        obtain ⟨h4, h5⟩ := h
        rw [← h5]
      | ok pending =>
        simp only [hrun] at h
        by_cases h3 : o.commitOk = true
        · rw [if_pos h3] at h
          simp at h
        · rw [if_neg h3, Prod.mk.injEq] at h
          obtain ⟨h4, h5⟩ := h
          rw [← h5]

theorem migrate_closes_connections (o : Oracle) (src : List SourceTable) (init : Target) :
    (migrate o src init).2.sqliteOpen = false ∧ (migrate o src init).2.neonOpen = false := by
  unfold migrate
  by_cases h1 : o.sqliteConnectOk = false
  · simp [h1]
  · by_cases h2 : o.neonConnectOk = false
    · simp [h1, h2]
    · simp only [if_neg h1, if_neg h2]
      cases hrun : runTablesE o src init with
      | error e => simp [hrun]
      | ok pending =>
        simp only [hrun]
        by_cases h3 : o.commitOk = true
        · simp [h3]
        · simp [h3]

/-- C2: whenever an exception escapes `migrate`, the target transaction
is rolled back (the committed target state is exactly what it was before
the run) and the process exits with status 1 (nonzero); and in every
case, success or failure, both connections end up closed. -/
theorem c2_rollback_close_and_exit (o : Oracle) (src : List SourceTable) (init : Target) :
    ((migrate o src init).2.sqliteOpen = false ∧ (migrate o src init).2.neonOpen = false)
    ∧ (∀ e : String, (migrate o src init).1 = .error e →
        (migrate o src init).2.committed = init
        ∧ mainExitCode o src init = 1 ∧ mainExitCode o src init ≠ 0) := by
  refine ⟨migrate_closes_connections o src init, ?_⟩
  intro e he
  have hpair : migrate o src init = ((migrate o src init).1, (migrate o src init).2) := rfl
  rw [he] at hpair
  refine ⟨migrate_error_committed o src init e _ hpair, ?_, ?_⟩
  · unfold mainExitCode
    rw [he]
  · unfold mainExitCode
    rw [he]
    simp

def c2Oracle : Oracle :=
  { sqliteConnectOk := true, neonConnectOk := true, ddlOk := fun _ => true,
    insertRes := fun _ _ => Except.ok (), commitOk := false }

def c2Init : Target := fun _ => none

theorem c2_witness :
    (migrate c2Oracle [] c2Init).2.committed = c2Init
    ∧ mainExitCode c2Oracle [] c2Init = 1 :=
  have h := (c2_rollback_close_and_exit c2Oracle [] c2Init).2 "commit failed" rfl
  ⟨h.1, h.2.1⟩

/-! ## Rerun idempotence -/

theorem strData_ext (a b : String) (h : a.data = b.data) : a = b := by
  cases a; cases b; cases h; rfl

theorem strData_append (a b : String) : (a ++ b).data = a.data ++ b.data := by
  cases a; cases b; rfl

/-- C6: `create_postgres_table` always emits `DROP TABLE IF EXISTS
<table> CASCADE;` before `CREATE TABLE`, and a second full run of
`migrate` against the same source leaves the committed target exactly as
the first run left it. -/
theorem c6_drop_before_create_and_rerun_idempotent :
    (∀ (t : String) (schema : List Column), ∃ rest : String,
      create_postgres_table t schema
        = "\n        " ++ (("DROP TABLE IF EXISTS " ++ t ++ " CASCADE;")
          ++ ("\n        CREATE TABLE " ++ rest)))
    ∧ (∀ (o : Oracle) (src : List SourceTable) (init : Target) (s1 s2 : RunState),
        migrate o src init = (.ok (), s1) →
        migrate o src s1.committed = (.ok (), s2) →
        s2.committed = s1.committed) := by
  constructor
  · intro t schema
    refine ⟨t ++ " (\n            " ++ String.intercalate ", " (ddlColumns schema)
      ++ pkConstraint schema ++ "\n        );\n        ", ?_⟩
    apply strData_ext
    simp [create_postgres_table, strData_append, List.append_assoc]
  · intro o src init s1 s2 h1 h2
    have hrun1 := migrate_ok_inv o src init s1 h1
    have hrun2 := migrate_ok_inv o src s1.committed s2 h2
    funext name
    rw [runTablesE_ok_eval o src s1.committed s2.committed hrun2 name]
    cases hfind : lookupLast src name with
    | some tbl =>
      rw [runTablesE_ok_eval o src init s1.committed hrun1 name, hfind]
    | none => rfl

def c6Oracle : Oracle :=
  { sqliteConnectOk := true, neonConnectOk := true, ddlOk := fun _ => true,
    insertRes := fun _ _ => Except.ok (), commitOk := true }

def c6Src : List SourceTable :=
  [{ name := "users",
     schema := [{ cid := 0, name := "id", type := "INTEGER", notnull := true,
                  dflt_value := none, pk := true }],
     rows := [[Value.int 1], [Value.int 2]],
     indexes := [] }]

def c6Init : Target := fun _ => none

theorem c6_witness :
    (migrate c6Oracle c6Src c6Init).1 = Except.ok ()
    ∧ (migrate c6Oracle c6Src (migrate c6Oracle c6Src c6Init).2.committed).2.committed
      = (migrate c6Oracle c6Src c6Init).2.committed := by
  have h1 : (migrate c6Oracle c6Src c6Init).1 = Except.ok () := rfl
  have hp1 : migrate c6Oracle c6Src c6Init
      = ((migrate c6Oracle c6Src c6Init).1, (migrate c6Oracle c6Src c6Init).2) := rfl
  rw [h1] at hp1
  have h2 : (migrate c6Oracle c6Src (migrate c6Oracle c6Src c6Init).2.committed).1
      = Except.ok () := rfl
  have hp2 : migrate c6Oracle c6Src (migrate c6Oracle c6Src c6Init).2.committed
      = ((migrate c6Oracle c6Src (migrate c6Oracle c6Src c6Init).2.committed).1,
         (migrate c6Oracle c6Src (migrate c6Oracle c6Src c6Init).2.committed).2) := rfl
  rw [h2] at hp2
  exact ⟨h1, c6_drop_before_create_and_rerun_idempotent.2 c6Oracle c6Src c6Init
    (migrate c6Oracle c6Src c6Init).2
    (migrate c6Oracle c6Src (migrate c6Oracle c6Src c6Init).2.committed).2 hp1 hp2⟩

/-! ## Index recreation -/

def c7Index : SqliteIndex :=
  { name := "idx_users_email", unique := true, origin := "c", columns := ["email"] }

/-- C7 (divergence witness): `create_indexes` decides with `index[2]`,
which is the `unique` flag of `PRAGMA index_list`, not the
auto-generated origin.  An explicitly created unique index
(origin `c`) is therefore skipped: no `CREATE INDEX` statement is issued
for it, although it is not auto-generated. -/
theorem c7_user_unique_index_skipped :
    (create_indexes (fun _ => Except.ok ()) "users" [c7Index]).1 = []
    ∧ c7Index.origin = "c"
    ∧ c7Index.unique = true := ⟨rfl, rfl, rfl⟩

/-! ## Sequence reset lemmas -/

theorem listMax_cons (v : Int) (rest : List Int) :
    listMax (v :: rest)
      = some (match listMax rest with | none => v | some m => max v m) := rfl

theorem le_coalesceMaxOne : ∀ (vals : List Int) (v : Int), v ∈ vals →
    v ≤ coalesceMaxOne vals := by
  intro vals
  induction vals with
  | nil => intro v hv; cases hv
  | cons a rest ih =>
    intro v hv
    rcases List.mem_cons.mp hv with rfl | hm
    · unfold coalesceMaxOne
      rw [listMax_cons]
      cases hr : listMax rest with
      | none => exact le_refl v
      | some m => exact le_max_left v m
    · cases rest with
      | nil => cases hm
      | cons b r =>
        have hv2 := ih v hm
        unfold coalesceMaxOne at hv2 ⊢
        rw [listMax_cons] at hv2 ⊢
        rw [listMax_cons]
        exact le_trans hv2 (le_max_right a _)

theorem resetLoop_cons (setvalOk : String → String → Bool)
    (colVals : String → String → List Int) (c : CatalogColumn)
    (rest : List CatalogColumn) (st : SeqState) :
    resetLoop setvalOk colVals (c :: rest) st
      = resetLoop setvalOk colVals rest
          (if setvalOk c.table_name c.column_name then
            updateSeq st c.table_name c.column_name
              (coalesceMaxOne (colVals c.table_name c.column_name))
          else st) := rfl

theorem resetLoop_or (setvalOk : String → String → Bool)
    (colVals : String → String → List Int) (t0 c0 : String) :
    ∀ (cols : List CatalogColumn) (st : SeqState),
    resetLoop setvalOk colVals cols st t0 c0 = st t0 c0
    ∨ resetLoop setvalOk colVals cols st t0 c0 = coalesceMaxOne (colVals t0 c0) := by
  intro cols
  induction cols with
  | nil => intro st; exact Or.inl rfl
  | cons c rest ih =>
    intro st
    rw [resetLoop_cons]
    by_cases hok : setvalOk c.table_name c.column_name = true
    · rw [if_pos hok]
      rcases ih (updateSeq st c.table_name c.column_name
        (coalesceMaxOne (colVals c.table_name c.column_name))) with h | h
      · rw [h]
        unfold updateSeq
        by_cases hkey : (t0 == c.table_name && c0 == c.column_name) = true
        · rw [if_pos hkey]
          simp only [Bool.and_eq_true, beq_iff_eq] at hkey
          obtain ⟨hk1, hk2⟩ := hkey
          right
          rw [hk1, hk2]
        · rw [if_neg hkey]
          exact Or.inl rfl
      · exact Or.inr h
    · rw [if_neg hok]
      exact ih st

theorem resetLoop_mem (setvalOk : String → String → Bool)
    (colVals : String → String → List Int) (t0 c0 : String) :
    ∀ (cols : List CatalogColumn) (st : SeqState),
    (∃ d ∈ cols, d.table_name = t0 ∧ d.column_name = c0) →
    setvalOk t0 c0 = true →
    resetLoop setvalOk colVals cols st t0 c0 = coalesceMaxOne (colVals t0 c0) := by
  intro cols
  induction cols with
  | nil => rintro st ⟨d, hd, -⟩ _; cases hd
  | cons c rest ih =>
    rintro st ⟨d, hd, hdt, hdc⟩ hok
    rw [resetLoop_cons]
    rcases List.mem_cons.mp hd with rfl | hmem
    · subst hdt
      subst hdc
      rw [if_pos hok]
      rcases resetLoop_or setvalOk colVals d.table_name d.column_name rest
        (updateSeq st d.table_name d.column_name
          (coalesceMaxOne (colVals d.table_name d.column_name))) with h | h
      · rw [h]
        unfold updateSeq
        rw [if_pos (by simp)]
      · exact h
    · exact ih _ ⟨d, hmem, hdt, hdc⟩ hok

/-- C8: for every catalog column in the public schema whose default is a
`nextval(...)` sequence and whose `setval` call succeeds,
`reset_sequences` sets the sequence to at least every value stored in
the column (to 1 when the column is empty), so the next auto-increment
insert receives a value colliding with no migrated value. -/
theorem c8_sequence_reset_no_collision
    (setvalOk : String → String → Bool) (colVals : String → String → List Int)
    (cols : List CatalogColumn) (st : SeqState) (c : CatalogColumn)
    (hc : c ∈ cols) (hschema : c.table_schema = "public")
    (hserial : isSerialDefault c.column_default = true)
    (hok : setvalOk c.table_name c.column_name = true) :
    (∀ v ∈ colVals c.table_name c.column_name,
        v ≤ reset_sequences setvalOk colVals cols st c.table_name c.column_name)
    ∧ (colVals c.table_name c.column_name = [] →
        reset_sequences setvalOk colVals cols st c.table_name c.column_name = 1)
    ∧ (∀ v ∈ colVals c.table_name c.column_name,
        nextAutoValue (reset_sequences setvalOk colVals cols st)
          c.table_name c.column_name ≠ v) := by
  have hsel : c ∈ selectedSequences cols :=
    List.mem_filter.mpr ⟨hc, by simp [hschema, hserial]⟩
  have hfinal : reset_sequences setvalOk colVals cols st c.table_name c.column_name
      = coalesceMaxOne (colVals c.table_name c.column_name) := by
    unfold reset_sequences
    exact resetLoop_mem setvalOk colVals c.table_name c.column_name
      (selectedSequences cols) st ⟨c, hsel, rfl, rfl⟩ hok
  refine ⟨?_, ?_, ?_⟩
  · intro v hv
    rw [hfinal]
    exact le_coalesceMaxOne _ v hv
  · intro h0
    rw [hfinal, h0]
    rfl
  · intro v hv
    have hle := le_coalesceMaxOne _ v hv
    unfold nextAutoValue
    rw [hfinal]
    omega

def c8Col : CatalogColumn :=
  { table_name := "users", column_name := "id", table_schema := "public",
    column_default := some "nextval(users_id_seq)" }

def c8Catalog : List CatalogColumn := [c8Col]

def c8Vals : String → String → List Int :=
  fun t c => if t == "users" && c == "id" then [3, 5] else []

def c8SeqInit : SeqState := fun _ _ => 1

theorem c8_witness :
    ((5 : Int) ≤ reset_sequences (fun _ _ => true) c8Vals c8Catalog c8SeqInit "users" "id")
    ∧ nextAutoValue (reset_sequences (fun _ _ => true) c8Vals c8Catalog c8SeqInit)
        "users" "id" ≠ 5 := by
  have h := c8_sequence_reset_no_collision (fun _ _ => true) c8Vals c8Catalog c8SeqInit
    c8Col (List.mem_cons_self c8Col []) rfl rfl rfl
  exact ⟨h.1 5 (by decide), h.2.2 5 (by decide)⟩

/-! ## Verification pass -/

/-- C10: `verify_migration` catches all its exceptions internally, so the
exit status never depends on the verification oracle at all: after a
successful `migrate` the process exits 0 whatever the verification pass
observes (row-count mismatches or errors included), and after a failed
`migrate` it exits 1. -/
theorem c10_verify_never_changes_exit (o : Oracle) (vo vo2 : VerifyOracle)
    (src : List SourceTable) (init : Target) :
    mainWithVerify o vo src init = mainWithVerify o vo2 src init
    ∧ ((migrate o src init).1 = .ok () → mainWithVerify o vo src init = 0)
    ∧ (∀ e : String, (migrate o src init).1 = .error e →
        mainWithVerify o vo src init = 1) := by
  refine ⟨?_, ?_, ?_⟩
  · unfold mainWithVerify
    cases (migrate o src init).1 <;> rfl
  · intro h
    unfold mainWithVerify
    rw [h]
  · intro e h
    unfold mainWithVerify
    rw [h]

def c10Oracle : Oracle :=
  { sqliteConnectOk := true, neonConnectOk := true, ddlOk := fun _ => true,
    insertRes := fun _ _ => Except.ok (), commitOk := true }

def c10Src : List SourceTable :=
  [{ name := "users", schema := [], rows := [], indexes := [] }]

def c10VOracle : VerifyOracle :=
  { sqliteConnectOk := true, neonConnectOk := true,
    srcCount := fun _ => Except.ok 2, tgtCount := fun _ => Except.ok 1 }

def c10Init : Target := fun _ => none

theorem c10_witness :
    mainWithVerify c10Oracle c10VOracle c10Src c10Init = 0
    ∧ c10VOracle.srcCount "users" = Except.ok 2
    ∧ c10VOracle.tgtCount "users" = Except.ok 1 :=
  ⟨(c10_verify_never_changes_exit c10Oracle c10VOracle c10VOracle c10Src c10Init).2.1 rfl,
   rfl, rfl⟩

/-! ## Row transfer: claim C1 -/

def c1Table : SourceTable :=
  { name := "orders", schema := [], rows := c1Rows, indexes := [] }

def c1Oracle : Oracle :=
  { sqliteConnectOk := true, neonConnectOk := true, ddlOk := fun _ => true,
    insertRes := c1InsertRes, commitOk := true }

def c1Src : List SourceTable := [c1Table]

def c1Init : Target := fun _ => none

/-- C1: in `migrate_table_data`, a failing per-row insert is logged as a
warning naming the table and skipped while the remaining rows are
inserted: the inserted rows are exactly the (normalized) rows whose
insert succeeds, their number is the source row count minus the number
of failed rows, every failed row leaves a warning in the log, and after
a successful `migrate` the committed target table holds exactly that
many rows. -/
theorem c1_per_row_failures_skipped_and_logged
    (f : String → List Value → Except String Unit) (t : String)
    (rows : List (List Value)) :
    (migrate_table_data f t rows).1
        = (rows.map (fun r => r.map normalizeVal)).filter (fun tup => isOkE (f t tup))
    ∧ (migrate_table_data f t rows).1.length
        = rows.length - (failedRows f t rows).length
    ∧ (∀ r ∈ rows, ∀ e : String, f t (r.map normalizeVal) = .error e →
        LogEntry.warning ("Error migrating row in " ++ t ++ ": " ++ e)
          ∈ (migrate_table_data f t rows).2.1)
    ∧ (∀ (o : Oracle) (src : List SourceTable) (init : Target) (s : RunState),
        migrate o src init = (.ok (), s) →
        ∀ tbl : SourceTable, lookupLast src tbl.name = some tbl →
        ∃ l : List (List Value), s.committed tbl.name = some l
          ∧ l.length = tbl.rows.length
              - (failedRows o.insertRes tbl.name tbl.rows).length) := by
  refine ⟨migrate_table_data_fst f t rows, migrate_table_data_length f t rows,
    fun r hr e he => migrate_table_data_warning f t rows r hr e he, ?_⟩
  intro o src init s hmig tbl hlook
  have hrun := migrate_ok_inv o src init s hmig
  have heval := runTablesE_ok_eval o src init s.committed hrun tbl.name
  simp only [hlook] at heval
  exact ⟨_, heval, migrate_table_data_length o.insertRes tbl.name tbl.rows⟩

theorem c1_witness :
    ((migrate_table_data c1InsertRes "orders" c1Rows).1.length
        = c1Rows.length - (failedRows c1InsertRes "orders" c1Rows).length)
    ∧ (LogEntry.warning ("Error migrating row in " ++ "orders" ++ ": "
        ++ "foreign key violation")
        ∈ (migrate_table_data c1InsertRes "orders" c1Rows).2.1)
    ∧ (∃ l : List (List Value),
        (migrate c1Oracle c1Src c1Init).2.committed "orders" = some l
        ∧ l.length = c1Rows.length
            - (failedRows c1InsertRes "orders" c1Rows).length) := by
  refine ⟨(c1_per_row_failures_skipped_and_logged c1InsertRes "orders" c1Rows).2.1,
    (c1_per_row_failures_skipped_and_logged c1InsertRes "orders" c1Rows).2.2.1
      [Value.int 3, Value.text "c"] (by decide) "foreign key violation" rfl, ?_⟩
  have h1 : (migrate c1Oracle c1Src c1Init).1 = Except.ok () := rfl
  have hp : migrate c1Oracle c1Src c1Init
      = ((migrate c1Oracle c1Src c1Init).1, (migrate c1Oracle c1Src c1Init).2) := rfl
  rw [h1] at hp
  exact (c1_per_row_failures_skipped_and_logged c1InsertRes "orders" c1Rows).2.2.2
    c1Oracle c1Src c1Init (migrate c1Oracle c1Src c1Init).2 hp c1Table rfl

end Portfolio
